import Mathlib

/-!
Verification of the kotaemon batch indexer and document retrieval pipeline.

The development shallowly embeds the Python sources:
  * `libs/api/batch_indexer/batch_indexer_module.py`
    (`BatchIndexerModule.delete_file_from_index`, `index_single_file`,
     `index_folder`, `get_files_to_index`)
  * `libs/ktem/ktem/index/file/document_retrieval_pipeline.py`
    (`DocumentRetrievalPipeline.run`, `generate_relevant_scores`)

State and effects are made explicit: the relational catalog is a value, and
every external side effect (catalog commit, vector-store delete, document-store
delete, catalog query, vector retrieval) is recorded in an event trace, so that
ordering and no-op claims are statable.
-/

namespace Kotaemon

/-- Bool test that the first list occurs contiguously inside the second. -/
def containsSeq : List Char → List Char → Bool
  | needle, [] => needle.isEmpty
  | needle, a :: t => needle.isPrefixOf (a :: t) || containsSeq needle t

/-- Python's substring test `needle in hay`: the needle's character list
occurs contiguously inside the haystack's character list. -/
def strContains (hay needle : String) : Bool :=
  containsSeq needle.toList hay.toList

/-- Python's `s.startswith(pre)`, on character lists. -/
def strStartsWith (s pre : String) : Bool :=
  pre.toList.isPrefixOf s.toList

/-! ## Catalog data model

`Source` is one catalog row per ingested file; `IndexRelation` is one row per
(source, target, relation_type) edge, with `relation_type` among `"vector"`
and `"document"` (other values are possible in the table and are handled by
the code's `if`/`elif` chain). -/

structure Source where
  id : String
  name : String
  user : String
  deriving DecidableEq, Repr

structure IndexRelation where
  source_id : String
  target_id : String
  relation_type : String
  deriving DecidableEq, Repr

/-- The catalog tables the deletion path touches, in query order. -/
structure Catalog where
  sources : List Source
  relations : List IndexRelation
  deriving DecidableEq, Repr

/-! ## `delete_file_from_index` -/

/-- One observable side effect of `delete_file_from_index`, in order:
the single catalog transaction commit (carrying the post-commit table
contents), a vector-store `delete(ids)` call, a document-store
`delete(ids)` call. -/
inductive DeleteEvent where
  | catalogCommit (sources : List Source) (relations : List IndexRelation)
  | vsDelete (ids : List String)
  | dsDelete (ids : List String)
  deriving DecidableEq, Repr

/-- The dictionary returned by `delete_file_from_index`. -/
structure DeleteResult where
  success : Bool
  file_id : Option String
  file_name : Option String
  message : String
  deriving DecidableEq, Repr

/-- Shallow embedding of `BatchIndexerModule.delete_file_from_index`
(batch_indexer_module.py lines 293-360), for the normal (non-raising) path:

  * the `Source` query filters on `Source.user == user_id` when `user_id`
    is truthy (the `Source` schema here always has the `user` column);
  * the first source whose `name` equals the requested file name is taken;
  * no match returns the not-found dictionary with no side effect;
  * otherwise the source row and every `IndexRelation` row with
    `source_id == file_id` are deleted and committed in one session, the
    target ids of the deleted relations being collected into `vs_ids`
    (`relation_type == "vector"`) and `ds_ids` (`relation_type == "document"`);
  * after the commit, `index._vs.delete(vs_ids)` is called only when `vs_ids`
    is non-empty, and `index._docstore.delete(ds_ids)` is called
    unconditionally. -/
def delete_file_from_index (cat : Catalog) (fileName : String) (user_id : String) :
    DeleteResult × List DeleteEvent :=
  let sources := if user_id != "" then cat.sources.filter (fun s => s.user == user_id)
                 else cat.sources
  match sources.find? (fun s => s.name == fileName) with
  | none => (⟨false, none, none, "File not found in index"⟩, [])
  | some source =>
      let file_id := source.id
      let recs := cat.relations.filter (fun r => r.source_id == file_id)
      let vs_ids := (recs.filter (fun r => r.relation_type == "vector")).map
        (fun r => r.target_id)
      let ds_ids := (recs.filter (fun r => r.relation_type == "document")).map
        (fun r => r.target_id)
      let sources' := cat.sources.filter (fun s => s.id != file_id)
      let relations' := cat.relations.filter (fun r => r.source_id != file_id)
      (⟨true, some file_id, some source.name,
         "File " ++ source.name ++ " deleted from index successfully"⟩,
       [DeleteEvent.catalogCommit sources' relations']
         ++ (if vs_ids.isEmpty then [] else [DeleteEvent.vsDelete vs_ids])
         ++ [DeleteEvent.dsDelete ds_ids])

/-! ## `DocumentRetrievalPipeline.run`

The pipeline is state-free per call; the external collaborators (the JSON
decoder used for scope flattening, the catalog, the `VectorRetrieval`
sub-pipeline for base and extra-table retrieval) are passed in as a
`RetrievalEnv`.  Every external call is also recorded as a `RunEvent`
so that "no store query was issued" claims are statable. -/

/-- Pipeline-local result record: `doc_id` plus the two metadata keys the
pipeline reads (`page_label`, `file_name`), each possibly absent. -/
structure RetrievedDocument where
  doc_id : String
  page_label : Option String := none
  file_name : Option String := none
  deriving DecidableEq, Repr

/-- The `where` argument of the extra-table retrieval: a single
`{$and: [{file_name=..}, {page_label in ..}]}` query when one file is
involved, a `{$or: [...]}` of such queries otherwise. -/
inductive WhereClause where
  | single (file_name : String) (page_labels : List String)
  | orAll (queries : List (String × List String))
  deriving DecidableEq, Repr

/-- Observable external calls made by `run`, in order: the catalog query
resolving the scope to chunk ids, the base vector retrieval, and the
extra-table retrieval. -/
inductive RunEvent where
  | catalogQuery (doc_ids : List String)
  | baseRetrieval (text : String) (top_k : Nat) (scope : List String)
      (filter_doc_ids : List String) (mmr : Bool)
  | extraRetrieval (top_k : Nat) (clause : WhereClause)
  deriving DecidableEq, Repr

/-- The exceptions `run` itself can raise on the embedded paths:
`ValueError("No document is selected")` on a `None` scope element, and the
`KeyError` from `doc.metadata["file_name"]` when a document carries a
`page_label` but no `file_name`. -/
inductive RunError where
  | noDocumentSelected
  | keyErrorFileName
  deriving DecidableEq, Repr

/-- The scope-flattening loop of `run` (document_retrieval_pipeline.py lines
82-92): a `None` element raises, an element starting with `"["` is replaced
by its JSON decode, any other element is kept. `jsonDecode` stands for
`json.loads` on a JSON list of strings. -/
def flattenDocIds (jsonDecode : String → List String) :
    List (Option String) → Except RunError (List String)
  | [] => Except.ok []
  | none :: _ => Except.error RunError.noDocumentSelected
  | some d :: rest =>
      match flattenDocIds jsonDecode rest with
      | Except.error e => Except.error e
      | Except.ok r =>
          Except.ok ((if strStartsWith d "[" then jsonDecode d else [d]) ++ r)

/-- The one-level flattening of a scope list without `None` elements: each
element starting with `"["` is replaced, in place, by the ids it encodes;
plain elements are kept. -/
def flattenOnce (jsonDecode : String → List String) (l : List String) :
    List String :=
  l.flatMap (fun d => if strStartsWith d "[" then jsonDecode d else [d])

/-- `table_pages[fn].append(pl)` on an insertion-ordered association list
(Python dicts preserve insertion order). -/
def addPage (tps : List (String × List String)) (fn pl : String) :
    List (String × List String) :=
  match tps with
  | [] => [(fn, [pl])]
  | (f, pls) :: rest =>
      if f == fn then (f, pls ++ [pl]) :: rest else (f, pls) :: addPage rest fn pl

/-- The grouping loop of the extra-table step (lines 137-147): documents
without a `page_label` are skipped; a document with a `page_label` but no
`file_name` makes `doc.metadata["file_name"]` raise a `KeyError` (the
preceding `warnings.warn` does not stop execution). -/
def buildTablePagesAux (acc : List (String × List String)) :
    List RetrievedDocument → Except RunError (List (String × List String))
  | [] => Except.ok acc
  | doc :: rest =>
      match doc.page_label with
      | none => buildTablePagesAux acc rest
      | some pl =>
          match doc.file_name with
          | none => Except.error RunError.keyErrorFileName
          | some fn => buildTablePagesAux (addPage acc fn pl) rest

def buildTablePages (docs : List RetrievedDocument) :
    Except RunError (List (String × List String)) :=
  buildTablePagesAux [] docs

/-- `queries[0] if len(queries) == 1 else {"$or": queries}` (line 158);
only reached with a non-empty `queries`. -/
def mkWhere (queries : List (String × List String)) : WhereClause :=
  match queries with
  | [q] => WhereClause.single q.1 q.2
  | qs => WhereClause.orAll qs

/-- External collaborators of one `run` call. `extraRetrieve` may fail
(`Except.error`), standing for any exception out of the extra-table
retrieval call. -/
structure RetrievalEnv where
  jsonDecode : String → List String
  relations : List IndexRelation
  baseRetrieve : String → Nat → List String → List String → Bool →
    List RetrievedDocument
  extraRetrieve : WhereClause → Except String (List RetrievedDocument)

/-- Construction-time configuration of `DocumentRetrievalPipeline` that the
embedded paths read (`retrieval_mode` and the reranker chain are inside the
opaque `baseRetrieve`). -/
structure RetrievalConfig where
  top_k : Nat := 5
  mmr : Bool := false
  get_extra_table : Bool := false
  deriving DecidableEq, Repr

/-- Shallow embedding of `DocumentRetrievalPipeline.run`
(document_retrieval_pipeline.py lines 68-166).  Returns the trace of
external calls together with either the result list or the raised error:

  * `doc_ids` truthy (present and non-empty) triggers the flattening loop,
    which raises on a `None` element;
  * an empty (or absent) flattened scope returns `[]` before any catalog or
    store call;
  * the catalog is queried for `relation_type == "document"` relations with
    `source_id` in the scope; their `target_id`s become the chunk scope of
    the base retrieval (`top_k`, `mmr` as configured);
  * with `get_extra_table`, page labels of base results are grouped by file
    name, one extra retrieval with `top_k = 50` is issued over the single or
    `$or`-combined clause, and the extra documents whose `doc_id` is not
    among the base `doc_id`s are appended in order; an exception from that
    retrieval is swallowed and the base list returned.

The scope normalisation prologue (`if doc_ids:` falsy — absent or empty —
skips the flattening loop; otherwise the loop runs and may raise) is split
out as `scopeFlat`. -/
def scopeFlat (jsonDecode : String → List String)
    (doc_ids : Option (List (Option String))) : Except RunError (List String) :=
  match doc_ids with
  | none => Except.ok []
  | some l => if l.isEmpty then Except.ok [] else flattenDocIds jsonDecode l

def run (env : RetrievalEnv) (cfg : RetrievalConfig) (text : String)
    (doc_ids : Option (List (Option String))) :
    List RunEvent × Except RunError (List RetrievedDocument) :=
  match scopeFlat env.jsonDecode doc_ids with
  | Except.error e => ([], Except.error e)
  | Except.ok ids =>
      if ids.isEmpty then ([], Except.ok [])
      else
        let chunk_ids := (env.relations.filter (fun r =>
            r.relation_type == "document" && ids.contains r.source_id)).map
          (fun r => r.target_id)
        let docs := env.baseRetrieve text cfg.top_k chunk_ids ids cfg.mmr
        let ev1 := [RunEvent.catalogQuery ids,
                    RunEvent.baseRetrieval text cfg.top_k chunk_ids ids cfg.mmr]
        if !cfg.get_extra_table then (ev1, Except.ok docs)
        else
          match buildTablePages docs with
          | Except.error e => (ev1, Except.error e)
          | Except.ok table_pages =>
              if table_pages.isEmpty then (ev1, Except.ok docs)
              else
                let wc := mkWhere table_pages
                let ev2 := ev1 ++ [RunEvent.extraRetrieval 50 wc]
                match env.extraRetrieve wc with
                | Except.error _ => (ev2, Except.ok docs)
                | Except.ok extra_docs =>
                    let retrieved_id := docs.map (fun d => d.doc_id)
                    (ev2, Except.ok (docs ++ extra_docs.filter
                      (fun d => !retrieved_id.contains d.doc_id)))

/-- Shallow embedding of `DocumentRetrievalPipeline.generate_relevant_scores`
(lines 168-176): with no `llm_scorer` the documents are returned unchanged;
otherwise the scorer's outcome — its returned list, or the exception it
raises — is the outcome of the call (there is no exception handling at this
layer). -/
def generate_relevant_scores
    (llm_scorer : Option (String → List RetrievedDocument →
      Except String (List RetrievedDocument)))
    (query : String) (documents : List RetrievedDocument) :
    Except String (List RetrievedDocument) :=
  match llm_scorer with
  | none => Except.ok documents
  | some scorer => scorer query documents

/-! ## `index_single_file` and `index_folder`

`index_single_file` drives the external indexing pipeline's generator
(`pipeline.stream(...)` wrapped in `GeneratorWrapper`) and classifies
its outcome; the generator itself is external, so its observable outcome is
the `StreamOutcome` parameter. -/

/-- Outcome of draining `GeneratorWrapper(pipeline.stream(...))`:
a `ValueError` raised during iteration, any other exception, or normal
completion with `wrapped_stream.value` — `none` when the attribute is
absent or falsy, otherwise the `(file_ids, errors)` prefix of the returned
triple (`all_docs` is unused). -/
inductive StreamOutcome where
  | valueErrorDuring (msg : String)
  | otherErrorDuring (msg : String)
  | finished (value : Option (List (Option String) × List (Option String)))
  deriving DecidableEq, Repr

/-- The dictionary returned by `index_single_file`. -/
structure FileResult where
  success : Bool
  file_id : Option String
  status : String
  message : String
  deriving DecidableEq, Repr

/-- Shallow embedding of `BatchIndexerModule.index_single_file`
(batch_indexer_module.py lines 85-138), after index resolution:

  * a `ValueError` during iteration whose message contains
    `"already indexed"`, with `reindex` false, returns the `skipped`
    success dictionary; any other `ValueError` is re-raised and lands in
    the outer `except Exception` as status `"error"`;
  * any other exception gives status `"error"` with its message;
  * on completion, a truthy `wrapped_stream.value` with a non-`None` first
    file id gives `"indexed"`; otherwise `"failed"` with the first error
    message when it is truthy, else `"Unknown error"`;
  * a falsy or missing `value` gives the `"failed"` no-return-value
    dictionary. -/
def index_single_file (outcome : StreamOutcome) (reindex : Bool) : FileResult :=
  match outcome with
  | StreamOutcome.valueErrorDuring msg =>
      if strContains msg "already indexed" && !reindex then
        ⟨true, none, "skipped", msg⟩
      else
        ⟨false, none, "error", msg⟩
  | StreamOutcome.otherErrorDuring msg => ⟨false, none, "error", msg⟩
  | StreamOutcome.finished none =>
      ⟨false, none, "failed", "Failed to index file - no return value from stream"⟩
  | StreamOutcome.finished (some (file_ids, errors)) =>
      match file_ids with
      | some fid :: _ => ⟨true, some fid, "indexed", "File indexed successfully"⟩
      | _ =>
          let error_msg := match errors with
            | some e :: _ => if e != "" then e else "Unknown error"
            | _ => "Unknown error"
          ⟨false, none, "failed", "Failed to index file: " ++ error_msg⟩

/-- Modelled from the spec: the indexing pipeline body
(`pipeline.stream`, not among the embedded sources) checks whether a
`Source` already exists for the file (match by name and user) and, when one
exists and `reindex` is false, raises a `ValueError` whose message contains
"already indexed" before any store mutation; otherwise it proceeds to the
outcome the pipeline would otherwise have. -/
def streamOutcome (sourceExists : Bool) (reindex : Bool)
    (otherwise : StreamOutcome) : StreamOutcome :=
  if sourceExists && !reindex then
    StreamOutcome.valueErrorDuring "This file is already indexed"
  else otherwise

/-- One entry of the folder walk (`folder_path.rglob("*")`), as the fields
`get_files_to_index` reads: the path components (the tuple `pathlib`
compares when sorting paths), whether it is a regular file, and its
extension (`Path.suffix`). -/
structure FsEntry where
  parts : List String
  isFile : Bool
  suffix : String
  deriving DecidableEq, Repr

/-- `Path.name`: the final path component. -/
def FsEntry.name (f : FsEntry) : String := f.parts.getLast?.getD ""

/-- `pathlib` path ordering: lexicographic comparison of the parts tuples
(POSIX flavour, case-sensitive). -/
def partsLe : List String → List String → Bool
  | [], _ => true
  | _ :: _, [] => false
  | a :: as, b :: bs => if a == b then partsLe as bs else decide (a < b)

/-- `any(file_path.suffix.lower() in ext.lower() for ext in
supported_extensions)` — note the Python `in` is substring containment of
the lowered suffix within the lowered extension. -/
def matchesExtension (supported : List String) (f : FsEntry) : Bool :=
  supported.any (fun ext => strContains ext.toLower f.suffix.toLower)

/-- Shallow embedding of `BatchIndexerModule.get_files_to_index` (lines
53-69): keep the regular files whose suffix matches a supported extension,
then `sorted(files)` under path ordering. -/
def get_files_to_index (entries : List FsEntry) (supported : List String) :
    List FsEntry :=
  (entries.filter (fun f => f.isFile && matchesExtension supported f)).mergeSort
    (fun a b => partsLe a.parts b.parts)

/-- One element of the report's `results` list: the `index_single_file`
dictionary with `file_path` and `file_name` added. -/
structure FolderEntry where
  success : Bool
  file_id : Option String
  status : String
  message : String
  file_path : List String
  file_name : String
  deriving DecidableEq, Repr

/-- The aggregate report returned by `index_folder`. -/
structure FolderReport where
  success : Bool
  indexed : Nat
  skipped : Nat
  errors : Nat
  total_files : Nat
  results : List FolderEntry
  deriving DecidableEq, Repr

/-- Shallow embedding of `BatchIndexerModule.index_folder` (lines 182-217),
from the point where the index and the file list are resolved.  `outcomeOf`
gives each file's external stream outcome; the loop body never raises
(`index_single_file` catches every exception), so every file contributes
exactly one entry.  The `status` elif-chain increments exactly one of the
three counters per file, which over the whole loop is a `countP` of the
results; `success` is `error_count == 0`.  The loop body for one file —
`mkFolderEntry` — is the `index_single_file` dictionary with
`result["file_path"]` and `result["file_name"]` added. -/
def mkFolderEntry (outcomeOf : FsEntry → StreamOutcome) (reindex : Bool)
    (f : FsEntry) : FolderEntry :=
  let r := index_single_file (outcomeOf f) reindex
  ⟨r.success, r.file_id, r.status, r.message, f.parts, f.name⟩

def index_folder (entries : List FsEntry) (supported : List String)
    (outcomeOf : FsEntry → StreamOutcome) (reindex : Bool) : FolderReport :=
  let files := get_files_to_index entries supported
  let results := files.map (mkFolderEntry outcomeOf reindex)
  let indexed := results.countP (fun r => r.status == "indexed")
  let skipped := results.countP (fun r => r.status == "skipped")
  let errors := results.countP
    (fun r => r.status != "indexed" && r.status != "skipped")
  ⟨errors == 0, indexed, skipped, errors, files.length, results⟩

/-! ## Concrete sample inputs used by the witnesses -/

/-- A catalog with two same-named sources for user `"u"` and relations of
both types on the first. -/
def catA : Catalog :=
  { sources := [⟨"s1", "a.pdf", "u"⟩, ⟨"s2", "a.pdf", "u"⟩, ⟨"s3", "b.pdf", "u"⟩],
    relations := [⟨"s1", "v1", "vector"⟩, ⟨"s1", "d1", "document"⟩,
                  ⟨"s2", "v2", "vector"⟩] }

/-- A catalog whose only source has vector relations but no document
relations, so the collected document-store id list is empty. -/
def catVectorOnly : Catalog :=
  { sources := [⟨"s1", "a.pdf", "u"⟩], relations := [⟨"s1", "v1", "vector"⟩] }

/-- A catalog whose only source has a document relation but no vector
relations, so the collected vector-store id list is empty. -/
def catDocOnly : Catalog :=
  { sources := [⟨"s1", "a.pdf", "u"⟩], relations := [⟨"s1", "d1", "document"⟩] }

/-- A concrete decoder for the JSON-encoded scope elements used by the
witnesses. -/
def sampleJsonDecode : String → List String :=
  fun s => if s = "[\"a\",\"b\"]" then ["a", "b"] else if s = "[]" then [] else []

/-- Catalog relation rows used by the retrieval witnesses. -/
def sampleRelations : List IndexRelation :=
  [⟨"a", "c1", "document"⟩, ⟨"c", "c2", "document"⟩, ⟨"a", "v1", "vector"⟩]

/-- A fixed base-retrieval answer: one table chunk (page 3 of `f.pdf`) and
one plain chunk. -/
def sampleBase : String → Nat → List String → List String → Bool →
    List RetrievedDocument :=
  fun _ _ _ _ _ => [⟨"x", some "3", some "f.pdf"⟩, ⟨"y", none, none⟩]

/-- The extra-table retrieval answer used by the witnesses: one duplicate of
a base chunk and one new chunk. -/
def sampleExtra : WhereClause → Except String (List RetrievedDocument) :=
  fun _ => Except.ok [⟨"x", none, none⟩, ⟨"z", none, none⟩]

/-- A complete retrieval environment for the witnesses. -/
def sampleEnv : RetrievalEnv :=
  { jsonDecode := sampleJsonDecode, relations := sampleRelations,
    baseRetrieve := sampleBase, extraRetrieve := sampleExtra }

/-- The same environment with an extra-table retrieval that always fails. -/
def sampleEnvFailingExtra : RetrievalEnv :=
  { jsonDecode := sampleJsonDecode, relations := sampleRelations,
    baseRetrieve := sampleBase,
    extraRetrieve := fun _ => Except.error "connection reset" }

/-- An LLM scorer that always fails. -/
def failingScorer : String → List RetrievedDocument →
    Except String (List RetrievedDocument) :=
  fun _ _ => Except.error "LLM scorer unavailable"

/-! ## Helper lemmas -/

/-- The event trace of a `delete_file_from_index` call that found a source. -/
theorem delete_trace_of_found
    (cat : Catalog) (fileName user_id : String) (source : Source)
    (h : ((if user_id != "" then cat.sources.filter (fun s => s.user == user_id)
           else cat.sources).find? (fun s => s.name == fileName)) = some source) :
    (delete_file_from_index cat fileName user_id).2 =
      DeleteEvent.catalogCommit
          (cat.sources.filter (fun s => s.id != source.id))
          (cat.relations.filter (fun r => r.source_id != source.id))
        :: ((if (((cat.relations.filter (fun r => r.source_id == source.id)).filter
                  (fun r => r.relation_type == "vector")).map
                  (fun r => r.target_id)).isEmpty then []
             else [DeleteEvent.vsDelete
                (((cat.relations.filter (fun r => r.source_id == source.id)).filter
                  (fun r => r.relation_type == "vector")).map (fun r => r.target_id))])
            ++ [DeleteEvent.dsDelete
                (((cat.relations.filter (fun r => r.source_id == source.id)).filter
                  (fun r => r.relation_type == "document")).map (fun r => r.target_id))]) := by
  simp only [delete_file_from_index, h, List.append_assoc, List.singleton_append,
    List.cons_append, List.nil_append]

/-- In a list of sources with pairwise-distinct ids, the rows sharing the id
of a member `s` are exactly `[s]`. -/
theorem filter_id_eq_singleton {l : List Source} {s : Source}
    (hmem : s ∈ l) (hnd : (l.map Source.id).Nodup) :
    l.filter (fun t => t.id == s.id) = [s] := by
  induction l with
  | nil => cases hmem
  | cons a t ih =>
      rw [List.map_cons, List.nodup_cons] at hnd
      obtain ⟨hid, hnd'⟩ := hnd
      rcases List.mem_cons.mp hmem with heq | hmem'
      · subst heq
        rw [List.filter_cons_of_pos (by simp)]
        have ht : t.filter (fun x => x.id == s.id) = [] := by
          apply List.filter_eq_nil_iff.mpr
          intro x hx hc
          exact hid (by
            rw [← (by simpa using hc : x.id = s.id)]
            exact List.mem_map_of_mem Source.id hx)
        rw [ht]
      · have hne : (a.id == s.id) = false := by
          apply beq_eq_false_iff_ne.mpr
          intro hc
          exact hid (hc ▸ List.mem_map_of_mem Source.id hmem')
        rw [List.filter_cons_of_neg (by simp [hne])]
        exact ih hmem' hnd'

/-! ## Theorems -/

/-- C1: when `delete_file_from_index` finds a matching `Source`, its side
effects are exactly: one catalog commit — removing the `Source` row and every
`IndexRelation` row with its `source_id` — followed by the store deletes,
where the vector store receives exactly the `target_id`s of the deleted
relations with `relation_type = "vector"` and the document store exactly
those with `relation_type = "document"`. -/
theorem delete_catalog_commit_precedes_store_deletes
    (cat : Catalog) (fileName user_id : String) (source : Source)
    (h : ((if user_id != "" then cat.sources.filter (fun s => s.user == user_id)
           else cat.sources).find? (fun s => s.name == fileName)) = some source) :
    (delete_file_from_index cat fileName user_id).2 =
      DeleteEvent.catalogCommit
          (cat.sources.filter (fun s => s.id != source.id))
          (cat.relations.filter (fun r => r.source_id != source.id))
        :: ((if (((cat.relations.filter (fun r => r.source_id == source.id)).filter
                  (fun r => r.relation_type == "vector")).map
                  (fun r => r.target_id)).isEmpty then []
             else [DeleteEvent.vsDelete
                (((cat.relations.filter (fun r => r.source_id == source.id)).filter
                  (fun r => r.relation_type == "vector")).map (fun r => r.target_id))])
            ++ [DeleteEvent.dsDelete
                (((cat.relations.filter (fun r => r.source_id == source.id)).filter
                  (fun r => r.relation_type == "document")).map (fun r => r.target_id))]) :=
  delete_trace_of_found cat fileName user_id source h

/-- Witness for C1 at `catA`: the first matching source is `s1`, and the
trace is the commit followed by `vsDelete ["v1"]` and `dsDelete ["d1"]`. -/
theorem delete_catalog_commit_precedes_store_deletes_witness :
    (delete_file_from_index catA "a.pdf" "u").2 =
      DeleteEvent.catalogCommit
          [⟨"s2", "a.pdf", "u"⟩, ⟨"s3", "b.pdf", "u"⟩]
          [⟨"s2", "v2", "vector"⟩]
        :: [DeleteEvent.vsDelete ["v1"], DeleteEvent.dsDelete ["d1"]] := by
  have h := delete_catalog_commit_precedes_store_deletes catA "a.pdf" "u"
    ⟨"s1", "a.pdf", "u"⟩ (by decide)
  simpa using h

/-- C2 counterexample: deleting `a.pdf` from `catVectorOnly` collects an
empty document-store id list (`ds_ids = []`), yet a document-store delete
call with the empty list is issued: the code guards only the vector-store
delete (`if vs_ids:`) and calls `index._docstore.delete(ds_ids)`
unconditionally. -/
theorem docstore_delete_called_with_empty_ids :
    DeleteEvent.dsDelete [] ∈ (delete_file_from_index catVectorOnly "a.pdf" "u").2 := by
  decide

/-- C2 as amended: for every delete that finds a source, an empty collected
vector-store id list suppresses the vector-store delete call entirely, while
the document-store delete call is always issued and carries exactly the
collected document-store id list — including the empty list. -/
theorem delete_empty_vector_ids_guarded_docstore_unconditional
    (cat : Catalog) (fileName user_id : String) (source : Source)
    (h : ((if user_id != "" then cat.sources.filter (fun s => s.user == user_id)
           else cat.sources).find? (fun s => s.name == fileName)) = some source) :
    ((((cat.relations.filter (fun r => r.source_id == source.id)).filter
        (fun r => r.relation_type == "vector")).map (fun r => r.target_id)) = [] →
      ∀ ids, DeleteEvent.vsDelete ids ∉ (delete_file_from_index cat fileName user_id).2) ∧
    DeleteEvent.dsDelete
        (((cat.relations.filter (fun r => r.source_id == source.id)).filter
          (fun r => r.relation_type == "document")).map (fun r => r.target_id))
      ∈ (delete_file_from_index cat fileName user_id).2 := by
  have ht := delete_trace_of_found cat fileName user_id source h
  constructor
  · intro hvs ids hmem
    rw [ht, hvs] at hmem
    simp at hmem
  · rw [ht]
    by_cases hc : ((((cat.relations.filter (fun r => r.source_id == source.id)).filter
        (fun r => r.relation_type == "vector")).map (fun r => r.target_id)).isEmpty
          = true) <;>
      simp [hc]

/-- Witness for the amended C2 at `catDocOnly`: no vector-store call is
made (empty `vs_ids`), and the document-store call carries `["d1"]`. -/
theorem delete_empty_vector_ids_guarded_docstore_unconditional_witness :
    DeleteEvent.vsDelete [] ∉ (delete_file_from_index catDocOnly "a.pdf" "u").2 ∧
    DeleteEvent.dsDelete ["d1"] ∈ (delete_file_from_index catDocOnly "a.pdf" "u").2 := by
  have h := delete_empty_vector_ids_guarded_docstore_unconditional catDocOnly
    "a.pdf" "u" ⟨"s1", "a.pdf", "u"⟩ (by decide)
  refine ⟨h.1 (by decide) [], ?_⟩
  have e : (((catDocOnly.relations.filter
        (fun r => r.source_id == Source.id ⟨"s1", "a.pdf", "u"⟩)).filter
      (fun r => r.relation_type == "document")).map (fun r => r.target_id)) = ["d1"] := by
    decide
  have h2 := h.2
  rw [e] at h2
  exact h2

/-- C10: `delete_file_from_index` deletes at most one `Source` row.  With no
match among the requesting user's sources it returns the unsuccessful
not-found dictionary and performs no catalog or store mutation (empty
trace).  With a match — the first one in catalog query order, as `find?`
takes it — and pairwise-distinct source ids, the committed catalog keeps
every other `Source` row and every `IndexRelation` row of other sources:
the rows removed from `sources` are exactly `[source]`, one fewer row
remains, and relations of other sources survive. -/
theorem delete_first_match_only (cat : Catalog) (fileName user_id : String)
    (hnd : (cat.sources.map Source.id).Nodup) :
    (((if user_id != "" then cat.sources.filter (fun s => s.user == user_id)
        else cat.sources).find? (fun s => s.name == fileName)) = none →
      delete_file_from_index cat fileName user_id =
        (⟨false, none, none, "File not found in index"⟩, [])) ∧
    (∀ source,
      ((if user_id != "" then cat.sources.filter (fun s => s.user == user_id)
        else cat.sources).find? (fun s => s.name == fileName)) = some source →
      (delete_file_from_index cat fileName user_id).2.head? =
        some (DeleteEvent.catalogCommit
          (cat.sources.filter (fun s => s.id != source.id))
          (cat.relations.filter (fun r => r.source_id != source.id))) ∧
      cat.sources.filter (fun t => t.id == source.id) = [source] ∧
      (cat.sources.filter (fun s => s.id != source.id)).length + 1 =
        cat.sources.length ∧
      (∀ t ∈ cat.sources, t ≠ source →
        t ∈ cat.sources.filter (fun s => s.id != source.id)) ∧
      (∀ r ∈ cat.relations, r.source_id ≠ source.id →
        r ∈ cat.relations.filter (fun r => r.source_id != source.id))) := by
  constructor
  · intro hnone
    simp only [delete_file_from_index, hnone]
  · intro source hfind
    have hmem : source ∈ cat.sources := by
      have hpool := List.mem_of_find?_eq_some hfind
      by_cases hu : (user_id != "") = true
      · rw [if_pos hu] at hpool
        exact List.mem_of_mem_filter hpool
      · rw [if_neg hu] at hpool
        exact hpool
    have hsingle : cat.sources.filter (fun t => t.id == source.id) = [source] :=
      filter_id_eq_singleton hmem hnd
    refine ⟨?_, hsingle, ?_, ?_, ?_⟩
    · rw [delete_trace_of_found cat fileName user_id source hfind]
      rfl
    · have hsplit := List.length_eq_length_filter_add
        (l := cat.sources) (fun s => s.id != source.id)
      have hnotf : cat.sources.filter (fun s => !(s.id != source.id)) =
          cat.sources.filter (fun t => t.id == source.id) := by
        apply List.filter_congr
        intro x _
        simp [bne]
      rw [hnotf, hsingle] at hsplit
      simp only [List.length_singleton] at hsplit
      omega
    · intro t htmem htne
      refine List.mem_filter.mpr ⟨htmem, ?_⟩
      have : t.id ≠ source.id := by
        intro hc
        exact htne (List.inj_on_of_nodup_map hnd htmem hmem hc)
      simpa [bne_iff_ne] using this
    · intro r hrmem hrne
      exact List.mem_filter.mpr ⟨hrmem, by simpa [bne_iff_ne] using hrne⟩

/-- Witness for C10 at `catA`: the missing name `zzz.pdf` yields the
not-found result with an empty trace; deleting `a.pdf` commits a catalog
that keeps `s2` (also named `a.pdf`) and `s3` with their relations, and the
removed rows are exactly the first match `s1`. -/
theorem delete_first_match_only_witness :
    delete_file_from_index catA "zzz.pdf" "u" =
      (⟨false, none, none, "File not found in index"⟩, []) ∧
    (delete_file_from_index catA "a.pdf" "u").2.head? =
      some (DeleteEvent.catalogCommit
        [⟨"s2", "a.pdf", "u"⟩, ⟨"s3", "b.pdf", "u"⟩]
        [⟨"s2", "v2", "vector"⟩]) ∧
    catA.sources.filter (fun t => t.id == "s1") = [⟨"s1", "a.pdf", "u"⟩] := by
  have h1 := delete_first_match_only catA "zzz.pdf" "u" (by decide)
  have h2 := delete_first_match_only catA "a.pdf" "u" (by decide)
  have hb := (h2.2 ⟨"s1", "a.pdf", "u"⟩ (by decide)).1
  have e1 : catA.sources.filter
      (fun s => s.id != Source.id ⟨"s1", "a.pdf", "u"⟩) =
      [⟨"s2", "a.pdf", "u"⟩, ⟨"s3", "b.pdf", "u"⟩] := by decide
  have e2 : catA.relations.filter
      (fun r => r.source_id != Source.id ⟨"s1", "a.pdf", "u"⟩) =
      [⟨"s2", "v2", "vector"⟩] := by decide
  rw [e1, e2] at hb
  exact ⟨h1.1 (by decide), hb, (h2.2 ⟨"s1", "a.pdf", "u"⟩ (by decide)).2.1⟩

/-- C3: an already-indexed file with `reindex = false` is surfaced as the
structured result `status = "skipped"`, `success = true`, not as an error:
under the spec-modelled premise that the external pipeline raises the
"already indexed" `ValueError` for an existing source (whatever outcome it
would otherwise have had), and in general for any `ValueError` whose
message contains "already indexed".  The embedded `index_single_file`
performs no store call on this path — the stream raised before any store
mutation. -/
theorem already_indexed_surfaced_as_skipped :
    (∀ otherwise : StreamOutcome,
      index_single_file (streamOutcome true false otherwise) false =
        ⟨true, none, "skipped", "This file is already indexed"⟩) ∧
    (∀ msg : String, strContains msg "already indexed" = true →
      index_single_file (StreamOutcome.valueErrorDuring msg) false =
        ⟨true, none, "skipped", msg⟩) := by
  constructor
  · intro otherwise
    have hc : strContains "This file is already indexed" "already indexed" = true := by
      decide
    simp [streamOutcome, index_single_file, hc]
  · intro msg hmsg
    simp [index_single_file, hmsg]

/-- Witness for C3: the concrete message the indexing pipeline produces is
classified as skipped-and-successful. -/
theorem already_indexed_surfaced_as_skipped_witness :
    index_single_file
        (StreamOutcome.valueErrorDuring "File a.pdf is already indexed") false =
      ⟨true, none, "skipped", "File a.pdf is already indexed"⟩ :=
  already_indexed_surfaced_as_skipped.2 "File a.pdf is already indexed" (by decide)

/-- A `None` element makes the flattening loop raise
`ValueError("No document is selected")`. -/
theorem flattenDocIds_error_of_mem_none {jd : String → List String}
    {l : List (Option String)} (h : none ∈ l) :
    flattenDocIds jd l = Except.error RunError.noDocumentSelected := by
  induction l with
  | nil => cases h
  | cons a t ih =>
      cases a with
      | none => rfl
      | some d =>
          rcases List.mem_cons.mp h with hc | ht
          · simp at hc
          · simp only [flattenDocIds, ih ht]

/-- `run` with a raising scope prologue raises that error with no events. -/
theorem run_of_flat_error {env : RetrievalEnv} {cfg : RetrievalConfig}
    {text : String} {d : Option (List (Option String))} {e : RunError}
    (h : scopeFlat env.jsonDecode d = Except.error e) :
    run env cfg text d = ([], Except.error e) := by
  unfold run
  rw [h]

/-- `run` with an empty flattened scope returns `[]` with no events. -/
theorem run_of_flat_nil {env : RetrievalEnv} {cfg : RetrievalConfig}
    {text : String} {d : Option (List (Option String))}
    (h : scopeFlat env.jsonDecode d = Except.ok []) :
    run env cfg text d = ([], Except.ok []) := by
  unfold run
  rw [h]
  rfl

/-- C4: a non-empty `doc_ids` containing a `null` element makes `run` fail
immediately with the validation error and an empty event trace (no catalog
query, no store query); an absent `doc_ids`, or one whose flattening is
empty, returns the empty result list, again with an empty event trace. -/
theorem run_null_and_empty_scope (env : RetrievalEnv) (cfg : RetrievalConfig)
    (text : String) :
    (∀ l : List (Option String), l ≠ [] → none ∈ l →
      run env cfg text (some l) =
        ([], Except.error RunError.noDocumentSelected)) ∧
    run env cfg text none = ([], Except.ok []) ∧
    (∀ l : List (Option String), flattenDocIds env.jsonDecode l = Except.ok [] →
      run env cfg text (some l) = ([], Except.ok [])) := by
  refine ⟨?_, ?_, ?_⟩
  · intro l hne hmem
    apply run_of_flat_error
    have he : l.isEmpty = false := by
      cases l with
      | nil => simp at hne
      | cons a t => rfl
    simp [scopeFlat, he, flattenDocIds_error_of_mem_none hmem]
  · exact run_of_flat_nil rfl
  · intro l hflat
    apply run_of_flat_nil
    cases l with
    | nil => rfl
    | cons a t => simp [scopeFlat, hflat]

/-- Witness for C4 on the sample environment: a scope with a `null`, an
absent scope, and a scope flattening to `[]` (a JSON-encoded empty list). -/
theorem run_null_and_empty_scope_witness :
    run sampleEnv {} "q" (some [some "a", none]) =
      ([], Except.error RunError.noDocumentSelected) ∧
    run sampleEnv {} "q" none = ([], Except.ok []) ∧
    run sampleEnv {} "q" (some [some "[]"]) = ([], Except.ok []) := by
  have h := run_null_and_empty_scope sampleEnv {} "q"
  exact ⟨h.1 [some "a", none] (by simp) (by simp), h.2.1,
    h.2.2 [some "[]"] (by rfl)⟩

theorem flattenOnce_cons (jd : String → List String) (a : String)
    (t : List String) :
    flattenOnce jd (a :: t) =
      (if strStartsWith a "[" then jd a else [a]) ++ flattenOnce jd t := rfl

/-- Flattening a scope with no `None` elements succeeds with the one-level
flattening. -/
theorem flattenDocIds_map_some (jd : String → List String) (l : List String) :
    flattenDocIds jd (l.map some) = Except.ok (flattenOnce jd l) := by
  induction l with
  | nil => rfl
  | cons a t ih =>
      rw [List.map_cons]
      show (match flattenDocIds jd (t.map some) with
            | Except.error e => Except.error e
            | Except.ok r =>
                Except.ok ((if strStartsWith a "[" then jd a else [a]) ++ r)) =
          Except.ok (flattenOnce jd (a :: t))
      rw [ih, flattenOnce_cons]

/-- One-level flattening is the identity on lists of plain ids. -/
theorem flattenOnce_plain {jd : String → List String} {l : List String}
    (h : ∀ x ∈ l, strStartsWith x "[" = false) :
    flattenOnce jd l = l := by
  induction l with
  | nil => rfl
  | cons a t ih =>
      have ha := h a (by simp)
      have ht := ih fun x hx => h x (by simp [hx])
      simp [flattenOnce_cons, ha, ht]

theorem scopeFlat_map_some (jd : String → List String) (l : List String) :
    scopeFlat jd (some (l.map some)) = Except.ok (flattenOnce jd l) := by
  cases l with
  | nil => rfl
  | cons a t =>
      simp only [scopeFlat, List.map_cons, List.isEmpty_cons, if_false,
        Bool.false_eq_true]
      rw [← List.map_cons, flattenDocIds_map_some]

/-- C5: `run` on a scope mixing JSON-encoded groups (elements starting with
`"["`) and plain ids equals `run` on the one-level-flattened scope in which
each encoded element is replaced, in place, by the ids it encodes (the
encoded ids being plain, i.e. not themselves starting with `"["`). -/
theorem run_scope_flattening_equiv (env : RetrievalEnv) (cfg : RetrievalConfig)
    (text : String) (l : List String)
    (h : ∀ x ∈ flattenOnce env.jsonDecode l, strStartsWith x "[" = false) :
    run env cfg text (some (l.map some)) =
      run env cfg text (some ((flattenOnce env.jsonDecode l).map some)) := by
  have h1 : scopeFlat env.jsonDecode (some (l.map some)) =
      Except.ok (flattenOnce env.jsonDecode l) := scopeFlat_map_some _ _
  have h2 : scopeFlat env.jsonDecode
        (some ((flattenOnce env.jsonDecode l).map some)) =
      Except.ok (flattenOnce env.jsonDecode l) := by
    rw [scopeFlat_map_some, flattenOnce_plain h]
  unfold run
  rw [h1, h2]

/-- Witness for C5: the scope `["[\"a\",\"b\"]", "c"]` behaves exactly like
`["a", "b", "c"]` on the sample environment. -/
theorem run_scope_flattening_equiv_witness :
    run sampleEnv {} "q" (some [some "[\"a\",\"b\"]", some "c"]) =
      run sampleEnv {} "q" (some [some "a", some "b", some "c"]) := by
  have h := run_scope_flattening_equiv sampleEnv {} "q" ["[\"a\",\"b\"]", "c"]
    (by decide)
  have e : (flattenOnce sampleEnv.jsonDecode ["[\"a\",\"b\"]", "c"]).map some =
      [some "a", some "b", some "c"] := by rfl
  rw [e] at h
  exact h

/-- C6: on a run with `get_extra_table`, after the base retrieval the page
labels of base results are grouped by file name (`buildTablePages`), exactly
one additional retrieval with `top_k = 50` is issued — over the single
clause when one file is involved, over the `$or`-combination otherwise —
and exactly those returned documents whose `doc_id` is not among the base
results' ids are appended at the end, in discovery order, leaving the base
ranking as the unchanged prefix. -/
theorem run_extra_table_augmentation (env : RetrievalEnv)
    (cfg : RetrievalConfig) (text : String)
    (doc_ids : Option (List (Option String))) (ids : List String)
    (base : List RetrievedDocument) (tps : List (String × List String))
    (extra : List RetrievedDocument)
    (hx : cfg.get_extra_table = true)
    (hflat : scopeFlat env.jsonDecode doc_ids = Except.ok ids)
    (hne : ids.isEmpty = false)
    (hbase : base = env.baseRetrieve text cfg.top_k
      ((env.relations.filter (fun r =>
        r.relation_type == "document" && ids.contains r.source_id)).map
        (fun r => r.target_id)) ids cfg.mmr)
    (htp : buildTablePages base = Except.ok tps)
    (htne : tps.isEmpty = false)
    (hex : env.extraRetrieve (mkWhere tps) = Except.ok extra) :
    run env cfg text doc_ids =
      ([RunEvent.catalogQuery ids,
        RunEvent.baseRetrieval text cfg.top_k
          ((env.relations.filter (fun r =>
            r.relation_type == "document" && ids.contains r.source_id)).map
            (fun r => r.target_id)) ids cfg.mmr,
        RunEvent.extraRetrieval 50 (mkWhere tps)],
       Except.ok (base ++ extra.filter
         (fun d => !(base.map (fun b => b.doc_id)).contains d.doc_id))) ∧
    (∀ q, tps = [q] → mkWhere tps = WhereClause.single q.1 q.2) ∧
    (∀ q1 q2 qs, tps = q1 :: q2 :: qs → mkWhere tps = WhereClause.orAll tps) := by
  refine ⟨?_, ?_, ?_⟩
  · unfold run
    rw [hflat]
    simp only [hne, Bool.false_eq_true, if_false, hx, Bool.not_true]
    rw [← hbase, htp]
    simp only [htne, Bool.false_eq_true, if_false]
    rw [hex]
    exact rfl
  · intro q hq
    rw [hq]
    rfl
  · intro q1 q2 qs hq
    rw [hq]
    rfl

/-- C7: if the extra-table augmentation retrieval raises, the exception is
swallowed and `run` still returns the pre-augmentation base result list,
unchanged and in order (the trace records that the call was attempted). -/
theorem run_augmentation_failure_nonfatal (env : RetrievalEnv)
    (cfg : RetrievalConfig) (text : String)
    (doc_ids : Option (List (Option String))) (ids : List String)
    (base : List RetrievedDocument) (tps : List (String × List String))
    (msg : String)
    (hx : cfg.get_extra_table = true)
    (hflat : scopeFlat env.jsonDecode doc_ids = Except.ok ids)
    (hne : ids.isEmpty = false)
    (hbase : base = env.baseRetrieve text cfg.top_k
      ((env.relations.filter (fun r =>
        r.relation_type == "document" && ids.contains r.source_id)).map
        (fun r => r.target_id)) ids cfg.mmr)
    (htp : buildTablePages base = Except.ok tps)
    (htne : tps.isEmpty = false)
    (hex : env.extraRetrieve (mkWhere tps) = Except.error msg) :
    (run env cfg text doc_ids).2 = Except.ok base := by
  unfold run
  rw [hflat]
  simp only [hne, Bool.false_eq_true, if_false, hx, Bool.not_true]
  rw [← hbase, htp]
  simp only [htne, Bool.false_eq_true, if_false]
  rw [hex]

/-- Witness for C6: one table chunk on page 3 of `f.pdf` triggers one extra
retrieval with `top_k = 50` over the single clause; of the two returned
documents, the duplicate `x` is dropped and the new `z` is appended after
the base results. -/
theorem run_extra_table_augmentation_witness :
    run sampleEnv { get_extra_table := true } "q" (some [some "c"]) =
      ([RunEvent.catalogQuery ["c"],
        RunEvent.baseRetrieval "q" 5 ["c2"] ["c"] false,
        RunEvent.extraRetrieval 50 (WhereClause.single "f.pdf" ["3"])],
       Except.ok [⟨"x", some "3", some "f.pdf"⟩, ⟨"y", none, none⟩,
                  ⟨"z", none, none⟩]) := by
  have h := run_extra_table_augmentation sampleEnv { get_extra_table := true }
    "q" (some [some "c"]) ["c"]
    [⟨"x", some "3", some "f.pdf"⟩, ⟨"y", none, none⟩]
    [("f.pdf", ["3"])]
    [⟨"x", none, none⟩, ⟨"z", none, none⟩]
    rfl rfl rfl rfl rfl rfl rfl
  exact h.1.trans rfl

/-- Witness for C7: the same run against the environment whose extra-table
retrieval always fails still returns the two base results unchanged. -/
theorem run_augmentation_failure_nonfatal_witness :
    (run sampleEnvFailingExtra { get_extra_table := true } "q"
        (some [some "c"])).2 =
      Except.ok [⟨"x", some "3", some "f.pdf"⟩, ⟨"y", none, none⟩] :=
  run_augmentation_failure_nonfatal sampleEnvFailingExtra
    { get_extra_table := true } "q" (some [some "c"]) ["c"]
    [⟨"x", some "3", some "f.pdf"⟩, ⟨"y", none, none⟩]
    [("f.pdf", ["3"])] "connection reset" rfl rfl rfl rfl rfl rfl rfl

/-- C9 counterexample: with a configured scorer that fails,
`generate_relevant_scores` does not return the input documents — the
scorer's exception propagates (there is no try/except around the scorer
call), so the caller receives no result list at all: the failure removes
every result rather than leaving the list intact. -/
theorem scorer_failure_not_swallowed :
    generate_relevant_scores (some failingScorer) "q" [⟨"x", none, none⟩] =
      Except.error "LLM scorer unavailable" := rfl

/-- C9 as amended: with no `llm_scorer` configured the documents are
returned unchanged; with a scorer configured, the call's outcome is exactly
the scorer's outcome — its returned list replaces the input wholesale, and
a scorer failure propagates to the caller instead of being swallowed. -/
theorem generate_relevant_scores_dispatch :
    (∀ (query : String) (documents : List RetrievedDocument),
      generate_relevant_scores none query documents = Except.ok documents) ∧
    (∀ (scorer : String → List RetrievedDocument →
        Except String (List RetrievedDocument))
      (query : String) (documents : List RetrievedDocument),
      generate_relevant_scores (some scorer) query documents =
        scorer query documents) :=
  ⟨fun _ _ => rfl, fun _ _ _ => rfl⟩

theorem partsLe_cons_eq (x y : String) (xs ys : List String) :
    partsLe (x :: xs) (y :: ys) =
      if x == y then partsLe xs ys else decide (x < y) := rfl

/-- Path ordering is total. -/
theorem partsLe_total (a b : List String) :
    (partsLe a b || partsLe b a) = true := by
  induction a generalizing b with
  | nil => simp [partsLe]
  | cons x xs ih =>
      cases b with
      | nil => simp [partsLe]
      | cons y ys =>
          by_cases hxy : x = y
          · subst hxy
            simpa [partsLe_cons_eq] using ih ys
          · have hb : ¬((x == y) = true) := by
              simp [beq_eq_false_iff_ne.mpr hxy]
            have hb' : ¬((y == x) = true) := by
              simp [beq_eq_false_iff_ne.mpr (Ne.symm hxy)]
            rw [partsLe_cons_eq, partsLe_cons_eq, if_neg hb, if_neg hb']
            rcases lt_or_gt_of_ne hxy with hlt | hgt
            · rw [decide_eq_true hlt]
              simp
            · rw [decide_eq_true hgt]
              simp

/-- Path ordering is transitive. -/
theorem partsLe_trans (a b c : List String) (hab : partsLe a b = true)
    (hbc : partsLe b c = true) : partsLe a c = true := by
  induction a generalizing b c with
  | nil => simp [partsLe]
  | cons x xs ih =>
      cases b with
      | nil => simp [partsLe] at hab
      | cons y ys =>
          cases c with
          | nil => simp [partsLe] at hbc
          | cons z zs =>
              rw [partsLe_cons_eq] at hab hbc ⊢
              by_cases hxy : x = y
              · subst hxy
                rw [if_pos (by simp)] at hab
                by_cases hxz : x = z
                · subst hxz
                  rw [if_pos (by simp)] at hbc
                  rw [if_pos (by simp)]
                  exact ih ys zs hab hbc
                · rw [if_neg (by simp [hxz])] at hbc
                  rw [if_neg (by simp [hxz])]
                  exact hbc
              · rw [if_neg (by simp [hxy])] at hab
                have hxylt : x < y := of_decide_eq_true hab
                by_cases hyz : y = z
                · subst hyz
                  rw [if_neg (by simp [hxy])]
                  exact hab
                · rw [if_neg (by simp [hyz])] at hbc
                  have hyzlt : y < z := of_decide_eq_true hbc
                  have hxzlt : x < z := lt_trans hxylt hyzlt
                  rw [if_neg (by simp [ne_of_lt hxzlt])]
                  exact decide_eq_true hxzlt

/-- The three status counters partition the result list. -/
theorem counts_partition (results : List FolderEntry) :
    results.countP (fun r => r.status == "indexed") +
      results.countP (fun r => r.status == "skipped") +
      results.countP
        (fun r => r.status != "indexed" && r.status != "skipped") =
      results.length := by
  induction results with
  | nil => rfl
  | cons a t ih =>
      simp only [List.countP_cons, List.length_cons]
      by_cases h1 : a.status = "indexed"
      · simp only [h1]
        simp
        omega
      · by_cases h2 : a.status = "skipped"
        · simp only [h2]
          simp [h1]
          omega
        · simp [h1, h2]
          omega

/-- C8: the `index_folder` report satisfies: one `results` entry per matched
file in sorted path order, each carrying the per-file status, message,
`file_path` and `file_name` (a file's failure only contributes its own
entry — the loop never aborts); `indexed + skipped + errors = total_files =
length of results`; and `success` holds exactly when `errors = 0`. -/
theorem index_folder_report (entries : List FsEntry) (supported : List String)
    (outcomeOf : FsEntry → StreamOutcome) (reindex : Bool) :
    (index_folder entries supported outcomeOf reindex).results =
      (get_files_to_index entries supported).map
        (mkFolderEntry outcomeOf reindex) ∧
    (index_folder entries supported outcomeOf reindex).indexed +
        (index_folder entries supported outcomeOf reindex).skipped +
        (index_folder entries supported outcomeOf reindex).errors =
      (index_folder entries supported outcomeOf reindex).total_files ∧
    (index_folder entries supported outcomeOf reindex).total_files =
      (index_folder entries supported outcomeOf reindex).results.length ∧
    ((index_folder entries supported outcomeOf reindex).success = true ↔
      (index_folder entries supported outcomeOf reindex).errors = 0) ∧
    List.Pairwise (fun a b => partsLe a.file_path b.file_path = true)
      (index_folder entries supported outcomeOf reindex).results := by
  refine ⟨rfl, ?_, ?_, ?_, ?_⟩
  · show ((get_files_to_index entries supported).map
          (mkFolderEntry outcomeOf reindex)).countP
          (fun r => r.status == "indexed") +
        ((get_files_to_index entries supported).map
          (mkFolderEntry outcomeOf reindex)).countP
          (fun r => r.status == "skipped") +
        ((get_files_to_index entries supported).map
          (mkFolderEntry outcomeOf reindex)).countP
          (fun r => r.status != "indexed" && r.status != "skipped") =
        (get_files_to_index entries supported).length
    rw [counts_partition, List.length_map]
  · show (get_files_to_index entries supported).length =
      ((get_files_to_index entries supported).map
        (mkFolderEntry outcomeOf reindex)).length
    exact (List.length_map _ _).symm
  · show ((((get_files_to_index entries supported).map
          (mkFolderEntry outcomeOf reindex)).countP
          (fun r => r.status != "indexed" && r.status != "skipped") == 0) = true ↔
        (((get_files_to_index entries supported).map
          (mkFolderEntry outcomeOf reindex)).countP
          (fun r => r.status != "indexed" && r.status != "skipped")) = 0)
    exact beq_iff_eq
  · show List.Pairwise _ ((get_files_to_index entries supported).map
        (mkFolderEntry outcomeOf reindex))
    rw [List.pairwise_map]
    exact List.sorted_mergeSort
      (fun a b c hab hbc => partsLe_trans a.parts b.parts c.parts hab hbc)
      (fun a b => partsLe_total a.parts b.parts)
      (entries.filter (fun f => f.isFile && matchesExtension supported f))

end Kotaemon
